import Mathlib

/-!
Verification of the tool-dispatch and response-formatting layer of the
Financial Advisor repository.

Each of the four tool handlers (`safe_calculate`, `analyze_sentiment`,
`get_stock_data`, `search_wikipedia`) is shallowly embedded as a total Lean
function.  External effects (the VADER scorer, the yfinance market-data
client, the Wikipedia API client, the lexicon download) are passed in as
explicit oracles of type `Except String _`, where an `Except.error` models a
Python exception raised by the external call; the handler bodies — input
validation, pattern rewriting, arithmetic evaluation, classification,
formatting, and the `try/except` error conversion — are translated from the
source.

Numbers are modelled as rationals (the Python code computes with
floats/ints; every concrete value exercised here is exactly representable),
and Python strings as Lean `String`/`List Char` (both are sequences of
code points, matching Python `len` and slicing).
-/

namespace FinAdvisor

/-! ## Basic character and string utilities (Python semantics) -/

/-- Python `\s` / `str.strip` whitespace class. -/
def isSpaceChar (c : Char) : Bool :=
  c = ' ' || c = '\t' || c = '\n' || c = '\r' || c = '\x0b' || c = '\x0c'

/-- Python `str.strip()`. -/
def pyStrip (s : String) : String :=
  String.mk (((s.data.dropWhile isSpaceChar).reverse.dropWhile isSpaceChar).reverse)

/-- Python `str.upper()` (ASCII fragment, which is all tickers use). -/
def pyUpper (s : String) : String :=
  String.mk (s.data.map Char.toUpper)

/-- Python `str.lower()` (ASCII fragment). -/
def pyLower (s : String) : String :=
  String.mk (s.data.map Char.toLower)

/-- Python `s[:n]` on strings (code-point slicing). -/
def pyTake (s : String) (n : ℕ) : String :=
  String.mk (s.data.take n)

/-- Python `len` on strings (number of code points). -/
def pyLen (s : String) : ℕ :=
  s.data.length

/-- `listStarts p l` : `p` is a prefix of `l` (Boolean). -/
def listStarts : List Char → List Char → Bool
  | [], _ => true
  | _ :: _, [] => false
  | a :: as, b :: bs => a == b && listStarts as bs

/-- `listHas n l` : `n` occurs as a contiguous run inside `l` (Boolean). -/
def listHas (n : List Char) : List Char → Bool
  | [] => listStarts n []
  | c :: rest => listStarts n (c :: rest) || listHas n rest

/-- `strStarts s p` : the string `s` starts with `p` (Python `str.startswith`). -/
def strStarts (s p : String) : Bool :=
  listStarts p.data s.data

/-- `strHas s n` : the string `s` contains `n` (Python `in` on strings). -/
def strHas (s n : String) : Bool :=
  listHas n.data s.data

theorem data_mk (l : List Char) : (String.mk l).data = l := rfl

theorem listStarts_refl (l : List Char) : listStarts l l = true := by
  induction l with
  | nil => rfl
  | cons c cs ih => simp [listStarts, ih]

theorem listStarts_append (p l t : List Char) (h : listStarts p l = true) :
    listStarts p (l ++ t) = true := by
  induction p generalizing l with
  | nil => rfl
  | cons a as ih =>
    cases l with
    | nil => simp [listStarts] at h
    | cons b bs =>
      simp only [listStarts, Bool.and_eq_true, beq_iff_eq] at h
      simp only [List.cons_append, listStarts, Bool.and_eq_true, beq_iff_eq]
      exact ⟨h.1, ih bs h.2⟩

theorem listHas_of_starts (n l : List Char) (h : listStarts n l = true) :
    listHas n l = true := by
  cases l with
  | nil =>
    cases n with
    | nil => rfl
    | cons a as => simp [listStarts] at h
  | cons c rest => simp [listHas, h]

theorem listHas_append_right (n t : List Char) (h : listHas n t = true) :
    ∀ l : List Char, listHas n (l ++ t) = true := by
  intro l
  induction l with
  | nil => simpa using h
  | cons c cs ih => simp [listHas, ih]

theorem listHas_append_left (n l : List Char) (h : listHas n l = true) (t : List Char) :
    listHas n (l ++ t) = true := by
  induction l with
  | nil =>
    cases n with
    | nil =>
      cases t with
      | nil => rfl
      | cons c cs => simp [listHas, listStarts]
    | cons a as => simp [listHas, listStarts] at h
  | cons c cs ih =>
    simp only [listHas, Bool.or_eq_true] at h
    rcases h with h | h
    · simp only [List.cons_append, listHas, Bool.or_eq_true]
      exact Or.inl (listStarts_append _ _ _ h)
    · simp only [List.cons_append, listHas, Bool.or_eq_true]
      exact Or.inr (ih h)

/-- The infix `n ++ mid` pattern: `n` occurs in `pre ++ n ++ post`. -/
theorem listHas_sandwich (n pre post : List Char) :
    listHas n (pre ++ (n ++ post)) = true := by
  apply listHas_append_right
  apply listHas_of_starts
  exact listStarts_append _ _ _ (listStarts_refl n)

/-! ## Exact fractions

Python's numeric tower (ints and floats) is modelled by unreduced fractions
with a positive denominator — `Mathlib`'s `ℚ` normalizes through `Nat.gcd`,
which the kernel cannot evaluate, so computations are carried out on `Frac`
and specifications are stated through the value map `val : Frac → ℚ`.
Every concrete value the claims exercise is exactly representable, where
the Python float and the rational agree. -/

structure Frac where
  n : ℤ
  d : ℤ
  dpos : 0 < d

instance : DecidableEq Frac := fun a b =>
  if h : a.n = b.n ∧ a.d = b.d then
    isTrue (by cases a; cases b; simp only at h; simp [h.1, h.2])
  else
    isFalse (by intro e; cases e; exact h ⟨rfl, rfl⟩)

instance : Repr Frac := ⟨fun f _ => repr (f.n, f.d)⟩

/-- The rational value of a fraction. -/
def val (f : Frac) : ℚ := (f.n : ℚ) / (f.d : ℚ)

def intFrac (z : ℤ) : Frac := ⟨z, 1, one_pos⟩

def addF (a b : Frac) : Frac := ⟨a.n * b.d + b.n * a.d, a.d * b.d, mul_pos a.dpos b.dpos⟩

def subF (a b : Frac) : Frac := ⟨a.n * b.d - b.n * a.d, a.d * b.d, mul_pos a.dpos b.dpos⟩

def mulF (a b : Frac) : Frac := ⟨a.n * b.n, a.d * b.d, mul_pos a.dpos b.dpos⟩

def negF (a : Frac) : Frac := ⟨-a.n, a.d, a.dpos⟩

/-- Reciprocal; callers test the numerator against zero first. -/
def invF (a : Frac) : Frac :=
  if h : 0 < a.n then ⟨a.d, a.n, h⟩
  else if h2 : a.n < 0 then ⟨-a.d, -a.n, by omega⟩
  else intFrac 0

def divF (a b : Frac) : Frac := mulF a (invF b)

/-- `⌊a⌋` (Python `math.floor` / the floor in `%` and `//`). -/
def floorF (a : Frac) : ℤ := Int.fdiv a.n a.d

def isZeroF (a : Frac) : Bool := a.n == 0

def isNegF (a : Frac) : Bool := a.n < 0

/-- Strict comparison (denominators are positive). -/
def ltF (a b : Frac) : Bool := a.n * b.d < b.n * a.d

def powF (a : Frac) (e : ℕ) : Frac := ⟨a.n ^ e, a.d ^ e, pow_pos a.dpos e⟩

/-- Does the fraction denote an integer? (Python `float.is_integer`). -/
def isIntF (a : Frac) : Bool := a.n % a.d == 0

/-- The denoted integer (exact when `isIntF`). -/
def intOfF (a : Frac) : ℤ := Int.fdiv a.n a.d

/-- Conversion from `ℚ` at the formatting boundary of the other tools. -/
def ratFrac (q : ℚ) : Frac := ⟨q.num, (q.den : ℤ), Int.natCast_pos.mpr q.den_pos⟩

theorem val_intFrac (z : ℤ) : val (intFrac z) = (z : ℚ) := by
  simp [val, intFrac]

theorem val_ltF (a b : Frac) : ltF a b = true ↔ val a < val b := by
  simp only [ltF, val, decide_eq_true_eq]
  rw [div_lt_div_iff₀ (by exact_mod_cast a.dpos) (by exact_mod_cast b.dpos)]
  constructor
  · intro h
    exact_mod_cast h
  · intro h
    exact_mod_cast h

/-! ## Numeric formatting (Python `format` on the values the tools print)

Python formats floats with round-half-to-even; all functions below model the
decimal value exactly (every concrete value exercised by the claims is
exactly representable as a short decimal, where the binary float and the
decimal value agree). -/

/-- Decimal digits of `n`, most significant first (`[]` for `0`); the first
argument is recursion fuel, always called with `fuel = n`. -/
def natDigitsF : ℕ → ℕ → List Char
  | 0, _ => []
  | _ + 1, 0 => []
  | f + 1, n => natDigitsF f (n / 10) ++ [Nat.digitChar (n % 10)]

def natDigits (n : ℕ) : List Char := natDigitsF n n

/-- Decimal rendering of a natural number. -/
def natStr (n : ℕ) : String :=
  if n = 0 then ("0") else String.mk (natDigits n)

/-- Insert `,` after every third character of a reversed digit list. -/
def commaRev : List Char → List Char
  | a :: b :: c :: d :: rest => a :: b :: c :: ',' :: commaRev (d :: rest)
  | l => l

/-- Thousands-grouped decimal rendering (Python `{:,}` on a natural). -/
def groupStr (n : ℕ) : String :=
  if n = 0 then ("0") else String.mk (commaRev (natDigits n).reverse).reverse

/-- Python `round` / float-format rounding: round half to even, to an
integer (`2 * remainder` compared against the denominator). -/
def roundHE (f : Frac) : ℤ :=
  let q : ℤ := Int.fdiv f.n f.d
  let r2 : ℤ := 2 * (f.n - q * f.d)
  if r2 < f.d then q
  else if f.d < r2 then q + 1
  else if q % 2 = 0 then q else q + 1

/-- Left-pad a digit string with zeros to width `w`. -/
def padZeros (w : ℕ) (s : String) : String :=
  String.mk (List.replicate (w - s.data.length) '0' ++ s.data)

/-- Python fixed-point formatting `{q:.ndf}` (with optional thousands
grouping and optional forced `+` sign).  Python prints `-0.00` for a
negative value rounding to zero, which the `neg` test reproduces. -/
def fmtFixed (comma : Bool) (forcedSign : Bool) (nd : ℕ) (f : Frac) : String :=
  let scaled : ℤ := roundHE (mulF f (intFrac ((10 : ℤ) ^ nd)))
  let neg : Bool := decide (scaled < 0) || (decide (scaled = 0) && isNegF f)
  let na : ℕ := scaled.natAbs
  let ip : ℕ := na / 10 ^ nd
  let fp : ℕ := na % 10 ^ nd
  (if neg then ("-") else if forcedSign then ("+") else ("")) ++
    (if comma then groupStr ip else natStr ip) ++
    (if nd = 0 then ("") else ("." ) ++ padZeros nd (natStr fp))

/-- Python `{x:,.2f}`. -/
def fmt2c (f : Frac) : String := fmtFixed true false 2 f

/-- Python `{x:.2f}`. -/
def fmt2 (f : Frac) : String := fmtFixed false false 2 f

/-- Python `{x:+.2f}`. -/
def fmtSigned2 (f : Frac) : String := fmtFixed false true 2 f

/-- Python `{x:,.0f}`. -/
def fmt0c (f : Frac) : String := fmtFixed true false 0 f

/-- Python `{x:.3f}`. -/
def fmt3 (f : Frac) : String := fmtFixed false false 3 f

/-- Python `{x:.1%}` : multiply by 100, one decimal, percent sign. -/
def fmtPct1 (f : Frac) : String := fmtFixed false false 1 (mulF f (intFrac 100)) ++ ("%")

/-- Python `{round(x):,}` : banker's rounding to an integer, grouped. -/
def fmtRound (f : Frac) : String :=
  let r : ℤ := roundHE f
  (if r < 0 then ("-") else ("")) ++ groupStr r.natAbs

/-! ## Calculator: percentage-phrase rewriting

`safe_calculate` applies, in order, the three substitutions

* `(\d+\.?\d*)\s*%\s*of\s*(\d+\.?\d*)`  ↦ `(g1 / 100) * g2`
* `(\d+\.?\d*)\s*%\s*\*\s*(\d+\.?\d*)`  ↦ `(g1 / 100) * g2`
* `(\d+\.?\d*)\s*\*\s*(\d+\.?\d*)\s*%`  ↦ `g1 * (g2 / 100)`

and later the bare-percent substitution `(\d+\.?\d*)%` ↦ `(g1/100)`.
`re.sub` replaces the leftmost match, then resumes scanning at the first
character after it (replacement text is not rescanned); a matcher below
returns the replacement text together with the unconsumed remainder, and
`subScan` walks the string one character at a time exactly like the regex
engine's leftmost-match search.  For these patterns greedy matching never
backtracks (after each greedy piece the following literal cannot be
satisfied by giving characters back), so maximal-munch matchers are exact. -/

/-- Match the regex piece `\d+\.?\d*` at the start of `l`:
returns the matched text and the remainder. -/
def matchNum (l : List Char) : Option (List Char × List Char) :=
  let ds := l.takeWhile Char.isDigit
  let r1 := l.dropWhile Char.isDigit
  if ds.isEmpty then none
  else
    match r1 with
    | '.' :: r2 => some (ds ++ '.' :: r2.takeWhile Char.isDigit, r2.dropWhile Char.isDigit)
    | _ => some (ds, r1)

/-- Consume the regex piece `\s*`. -/
def dropSpaces (l : List Char) : List Char := l.dropWhile isSpaceChar

/-- Matcher for pattern 1, `(\d+\.?\d*)\s*%\s*of\s*(\d+\.?\d*)`, at the start
of the list; on success returns `(replacement, remainder)` with replacement
`(g1 / 100) * g2`. -/
def tryPat1 (l : List Char) : Option (List Char × List Char) :=
  match matchNum l with
  | none => none
  | some (g1, r1) =>
    match dropSpaces r1 with
    | '%' :: r3 =>
      match dropSpaces r3 with
      | 'o' :: 'f' :: r5 =>
        match matchNum (dropSpaces r5) with
        | none => none
        | some (g2, r7) =>
          some ('(' :: g1 ++ (" / 100) * ").data ++ g2, r7)
      | _ => none
    | _ => none

/-- Matcher for pattern 2, `(\d+\.?\d*)\s*%\s*\*\s*(\d+\.?\d*)`; replacement
`(g1 / 100) * g2`. -/
def tryPat2 (l : List Char) : Option (List Char × List Char) :=
  match matchNum l with
  | none => none
  | some (g1, r1) =>
    match dropSpaces r1 with
    | '%' :: r3 =>
      match dropSpaces r3 with
      | '*' :: r5 =>
        match matchNum (dropSpaces r5) with
        | none => none
        | some (g2, r7) =>
          some ('(' :: g1 ++ (" / 100) * ").data ++ g2, r7)
      | _ => none
    | _ => none

/-- Matcher for pattern 3, `(\d+\.?\d*)\s*\*\s*(\d+\.?\d*)\s*%`; replacement
`g1 * (g2 / 100)`. -/
def tryPat3 (l : List Char) : Option (List Char × List Char) :=
  match matchNum l with
  | none => none
  | some (g1, r1) =>
    match dropSpaces r1 with
    | '*' :: r3 =>
      match matchNum (dropSpaces r3) with
      | none => none
      | some (g2, r5) =>
        match dropSpaces r5 with
        | '%' :: r7 =>
          some (g1 ++ (" * (").data ++ g2 ++ (" / 100)").data, r7)
        | _ => none
    | _ => none

/-- Matcher for the bare-percent pattern `(\d+\.?\d*)%` — note: no `\s*`, the
`%` must immediately follow the number; replacement `(g1/100)`. -/
def tryBare (l : List Char) : Option (List Char × List Char) :=
  match matchNum l with
  | none => none
  | some (g1, r1) =>
    match r1 with
    | '%' :: r2 => some ('(' :: g1 ++ ("/100)").data, r2)
    | _ => none

/-- `re.sub` scan: at each position try the matcher; on a match emit the
replacement and resume after the match, otherwise keep the character and
move on.  The fuel (first argument) is always the length of the input,
which suffices because every match consumes at least one character. -/
def subScan (tr : List Char → Option (List Char × List Char)) :
    ℕ → List Char → List Char
  | 0, l => l
  | _ + 1, [] => []
  | fuel + 1, c :: cs =>
    match tr (c :: cs) with
    | some (repl, rest) => repl ++ subScan tr fuel rest
    | none => c :: subScan tr fuel cs

/-- One full `re.sub pattern repl expression` pass. -/
def applySub (tr : List Char → Option (List Char × List Char)) (l : List Char) :
    List Char :=
  subScan tr l.length l

/-- The three percentage-pattern substitutions, applied in the fixed source
order. -/
def percentRewrite (l : List Char) : List Char :=
  applySub tryPat3 (applySub tryPat2 (applySub tryPat1 l))

/-- Character class of the validation regex `^[\d\s\+\-\*\/\(\)\.\%]+$`. -/
def isAllowedChar (c : Char) : Bool :=
  c.isDigit || isSpaceChar c || c = '+' || c = '-' || c = '*' || c = '/' ||
    c = '(' || c = ')' || c = '.' || c = '%'

/-- The validation `re.match(r'^[\d\s\+\-\*\/\(\)\.\%]+$', expression)`
(the string reaching this point is never empty: it is the stripped input,
possibly rewritten, and the rewrites never empty a non-empty string). -/
def validExpr (l : List Char) : Bool :=
  !l.isEmpty && l.all isAllowedChar

/-- The bare-percent substitution `re.sub(r'(\d+\.?\d*)%', r'(\1/100)', e)`. -/
def bareRewrite (l : List Char) : List Char :=
  applySub tryBare l

/-! ## Calculator: restricted arithmetic evaluation

`eval(expression, {"__builtins__": {}}, {})` is invoked on a string that has
passed the character validation, so it can only denote Python arithmetic
over numeric literals with `+ - * / % // ** ( )` and unary signs.  It is
modelled by a lexer plus a shunting-yard evaluator over `Frac` with Python
operator precedence and associativity (unary sign below `**`, `**`
right-associative; `/` true division; `%` and `//` floor semantics).
Failures map onto the exception classes the source catches:
`divZero` ↦ `ZeroDivisionError`, `badParse` ↦ `SyntaxError`, `otherErr` ↦
any other exception.  Known modelling edges (unreachable from any claim):
a non-integer `**` exponent and malformed juxtapositions such as `5(3)` or
`()` are classified here as `otherErr`/`badParse` where Python would raise
a `TypeError` at run time — both land in an error block either way. -/

inductive EvalErr
  | divZero
  | badParse
  | otherErr (msg : String)
  deriving Repr, DecidableEq

inductive Tok
  | num (f : Frac)
  | plus | minus | star | slash | pcent | lparen | rparen | dstar | dslash
  deriving Repr, DecidableEq

/-- Numeric-literal accumulator: integer part, dot seen, fractional value
and length, and total digit count (`digs = 0` only for a lone `.`). -/
structure NumAcc where
  intv : ℕ
  hasDot : Bool
  fracv : ℕ
  fracLen : ℕ
  digs : ℕ
  deriving Repr, DecidableEq

def emptyAcc : NumAcc := ⟨0, false, 0, 0, 0⟩

def dotAcc : NumAcc := ⟨0, true, 0, 0, 0⟩

def pushDigit (a : NumAcc) (c : Char) : NumAcc :=
  let d := c.toNat - ('0').toNat
  if a.hasDot then
    { a with fracv := 10 * a.fracv + d, fracLen := a.fracLen + 1, digs := a.digs + 1 }
  else
    { a with intv := 10 * a.intv + d, digs := a.digs + 1 }

/-- The value of a numeric literal, as an exact fraction over `10 ^ fracLen`. -/
def numVal (a : NumAcc) : Frac :=
  ⟨(a.intv : ℤ) * 10 ^ a.fracLen + (a.fracv : ℤ), (10 : ℤ) ^ a.fracLen,
    pow_pos (by norm_num) _⟩

def flushTok (a : NumAcc) : Except EvalErr Tok :=
  if a.digs = 0 then .error .badParse else .ok (.num (numVal a))

def charTok : Char → Option Tok
  | '+' => some .plus
  | '-' => some .minus
  | '*' => some .star
  | '/' => some .slash
  | '%' => some .pcent
  | '(' => some .lparen
  | ')' => some .rparen
  | _ => none

/-- Lexer: one character at a time, with an optional in-progress numeric
literal; `**` and `//` lex as single tokens. -/
def lex : Option NumAcc → List Char → Except EvalErr (List Tok)
  | none, [] => .ok []
  | some a, [] =>
    match flushTok a with
    | .error e => .error e
    | .ok t => .ok [t]
  | none, '*' :: '*' :: rest2 => (lex none rest2).map (fun ts => Tok.dstar :: ts)
  | none, '/' :: '/' :: rest2 => (lex none rest2).map (fun ts => Tok.dslash :: ts)
  | some a, '*' :: '*' :: rest2 =>
    (match flushTok a with
     | .error e => .error e
     | .ok t => (lex none rest2).map (fun ts => t :: Tok.dstar :: ts))
  | some a, '/' :: '/' :: rest2 =>
    (match flushTok a with
     | .error e => .error e
     | .ok t => (lex none rest2).map (fun ts => t :: Tok.dslash :: ts))
  | none, c :: rest =>
    if c.isDigit then lex (some (pushDigit emptyAcc c)) rest
    else if c = '.' then lex (some dotAcc) rest
    else
      match charTok c with
      | some t => (lex none rest).map (fun ts => t :: ts)
      | none => if isSpaceChar c then lex none rest else .error .badParse
  | some a, c :: rest =>
    if c.isDigit then lex (some (pushDigit a c)) rest
    else if c = '.' then
      if a.hasDot then .error .badParse
      else lex (some { a with hasDot := true }) rest
    else
      match flushTok a with
      | .error e => .error e
      | .ok t =>
        match charTok c with
        | some t2 => (lex none rest).map (fun ts => t :: t2 :: ts)
        | none =>
          if isSpaceChar c then (lex none rest).map (fun ts => t :: ts)
          else .error .badParse
termination_by structural _ l => l

inductive OpK
  | add | sub | mul | div | mod | fdiv | pow | neg | uplus
  deriving Repr, DecidableEq

def precOf : OpK → ℕ
  | .add | .sub => 1
  | .mul | .div | .mod | .fdiv => 2
  | .neg | .uplus => 3
  | .pow => 4

/-- `+ - * / % //` are left-associative, `**` (and prefix signs) are not. -/
def leftAssoc : OpK → Bool
  | .pow | .neg | .uplus => false
  | _ => true

/-- Apply one operator to the operand stack. -/
def applyOp (k : OpK) (vs : List Frac) : Except EvalErr (List Frac) :=
  match k, vs with
  | .neg, v :: tl => .ok (negF v :: tl)
  | .uplus, v :: tl => .ok (v :: tl)
  | .add, b :: a :: tl => .ok (addF a b :: tl)
  | .sub, b :: a :: tl => .ok (subF a b :: tl)
  | .mul, b :: a :: tl => .ok (mulF a b :: tl)
  | .div, b :: a :: tl => if isZeroF b then .error .divZero else .ok (divF a b :: tl)
  | .mod, b :: a :: tl =>
    if isZeroF b then .error .divZero
    else .ok (subF a (mulF b (intFrac (floorF (divF a b)))) :: tl)
  | .fdiv, b :: a :: tl =>
    if isZeroF b then .error .divZero
    else .ok (intFrac (floorF (divF a b)) :: tl)
  | .pow, b :: a :: tl =>
    if isIntF b then
      let e := intOfF b
      if 0 ≤ e then .ok (powF a e.toNat :: tl)
      else if isZeroF a then .error .divZero
      else .ok (invF (powF a (-e).toNat) :: tl)
    else .error (.otherErr ("non-integer exponent"))
  | _, _ => .error .badParse

inductive OpEntry
  | op (k : OpK)
  | lp
  deriving Repr, DecidableEq

/-- Pop operators of higher precedence (or equal, when the incoming operator
is left-associative) before pushing the incoming binary operator. -/
def popGE (o : OpK) : List OpEntry → List Frac → Except EvalErr (List OpEntry × List Frac)
  | OpEntry.op k :: ks, vs =>
    if precOf o < precOf k || (precOf k = precOf o && leftAssoc o) then
      match applyOp k vs with
      | .error e => .error e
      | .ok vs2 => popGE o ks vs2
    else .ok (OpEntry.op k :: ks, vs)
  | ks, vs => .ok (ks, vs)

/-- Pop and apply until the matching `(` on a `)`. -/
def popToLP : List OpEntry → List Frac → Except EvalErr (List OpEntry × List Frac)
  | [], _ => .error .badParse
  | OpEntry.lp :: ks, vs => .ok (ks, vs)
  | OpEntry.op k :: ks, vs =>
    match applyOp k vs with
    | .error e => .error e
    | .ok vs2 => popToLP ks vs2

/-- Pop and apply everything at end of input. -/
def popAll : List OpEntry → List Frac → Except EvalErr (List Frac)
  | [], vs => .ok vs
  | OpEntry.lp :: _, _ => .error .badParse
  | OpEntry.op k :: ks, vs =>
    match applyOp k vs with
    | .error e => .error e
    | .ok vs2 => popAll ks vs2

/-- Shunting-yard evaluation loop.  `unaryPos` is true at the start, after an
operator, and after `(` — where `+`/`-` are prefix signs. -/
def runSY : List Tok → Bool → List OpEntry → List Frac → Except EvalErr Frac
  | [], _, ks, vs =>
    (match popAll ks vs with
     | .error e => .error e
     | .ok [v] => .ok v
     | .ok _ => .error .badParse)
  | .num q :: ts, _, ks, vs => runSY ts false ks (q :: vs)
  | .lparen :: ts, _, ks, vs => runSY ts true (OpEntry.lp :: ks) vs
  | .rparen :: ts, _, ks, vs =>
    (match popToLP ks vs with
     | .error e => .error e
     | .ok (ks2, vs2) => runSY ts false ks2 vs2)
  | .plus :: ts, uPos, ks, vs =>
    if uPos then runSY ts true (OpEntry.op .uplus :: ks) vs
    else
      match popGE .add ks vs with
      | .error e => .error e
      | .ok (ks2, vs2) => runSY ts true (OpEntry.op .add :: ks2) vs2
  | .minus :: ts, uPos, ks, vs =>
    if uPos then runSY ts true (OpEntry.op .neg :: ks) vs
    else
      match popGE .sub ks vs with
      | .error e => .error e
      | .ok (ks2, vs2) => runSY ts true (OpEntry.op .sub :: ks2) vs2
  | .star :: ts, uPos, ks, vs =>
    if uPos then .error .badParse
    else
      match popGE .mul ks vs with
      | .error e => .error e
      | .ok (ks2, vs2) => runSY ts true (OpEntry.op .mul :: ks2) vs2
  | .slash :: ts, uPos, ks, vs =>
    if uPos then .error .badParse
    else
      match popGE .div ks vs with
      | .error e => .error e
      | .ok (ks2, vs2) => runSY ts true (OpEntry.op .div :: ks2) vs2
  | .pcent :: ts, uPos, ks, vs =>
    if uPos then .error .badParse
    else
      match popGE .mod ks vs with
      | .error e => .error e
      | .ok (ks2, vs2) => runSY ts true (OpEntry.op .mod :: ks2) vs2
  | .dslash :: ts, uPos, ks, vs =>
    if uPos then .error .badParse
    else
      match popGE .fdiv ks vs with
      | .error e => .error e
      | .ok (ks2, vs2) => runSY ts true (OpEntry.op .fdiv :: ks2) vs2
  | .dstar :: ts, uPos, ks, vs =>
    if uPos then .error .badParse
    else
      match popGE .pow ks vs with
      | .error e => .error e
      | .ok (ks2, vs2) => runSY ts true (OpEntry.op .pow :: ks2) vs2

/-- Evaluate a validated expression string (the body of the restricted
`eval` call: no names, no builtins — only arithmetic). -/
def evalChars (l : List Char) : Except EvalErr Frac :=
  match lex none l with
  | .error e => .error e
  | .ok ts => runSY ts true [] []

/-! ## `safe_calculate` (tools/calculator_tool.py) -/

/-- The failure-marker prefix shared by every tool's error strings. -/
def errMark : String := ("❌")

def calcEmptyMsg : String :=
  ("❌ Error: Please provide a mathematical expression to calculate.")

def calcInvalidMsg : String :=
  ("❌ Error: Invalid characters in expression. Only numbers and operators (+, -, *, /, %, parentheses) are allowed.")

def calcDivMsg : String := ("❌ Error: Division by zero is not allowed.")

def calcSynMsg (orig : String) : String :=
  ("❌ Error: Invalid mathematical syntax in '") ++ orig ++
    ("'. Please check your expression.")

def calcGenMsg (orig msg : String) : String :=
  ("❌ Error calculating '") ++ orig ++ ("': ") ++ msg

/-- The currency line, emitted under `0 < result < 1_000_000_000`
(a Python chained comparison: both bounds on the signed value). -/
def currencyPart (v : Frac) : String :=
  if ltF (intFrac 0) v && ltF v (intFrac 1000000000) then
    ("- Currency: $") ++ fmt2c v ++ ("\n")
  else ("")

/-- The percentage line, emitted under `0 < result < 100`. -/
def percentPart (v : Frac) : String :=
  if ltF (intFrac 0) v && ltF v (intFrac 100) then
    ("- As Percentage: ") ++ fmt2 v ++ ("%\n")
  else ("")

/-- The financial-context remark, keyed on the original expression. -/
def contextPart (orig : String) : String :=
  if strHas (pyLower orig) ("of") || strHas orig ("%") then
    ("\n💡 **Financial Context**: This could represent a portion of a budget, investment, or savings.")
  else ("")

/-- The calculator's success block. -/
def calcSuccess (orig : String) (v : Frac) : String :=
  ("\n🧮 **Calculator Result**\n\n**Expression**: ") ++ orig ++
    ("\n**Result**: ") ++ fmt2c v ++
    ("\n\n**Formatted Results**:\n") ++
    ("- Decimal: ") ++ fmt2 v ++ ("\n") ++
    ("- Rounded: ") ++ fmtRound v ++ ("\n") ++
    currencyPart v ++ percentPart v ++ contextPart orig

inductive CalcErr
  | emptyE
  | invalidE
  | evalE (e : EvalErr)
  deriving Repr, DecidableEq

/-- The numeric pipeline of `safe_calculate`: empty check, percentage-phrase
rewriting, character validation, bare-percent rewriting, evaluation. -/
def calcFrac (s : String) : Except CalcErr Frac :=
  if pyStrip s = ("") then .error .emptyE
  else
    let rw := percentRewrite (pyStrip s).data
    if validExpr rw then
      match evalChars (bareRewrite rw) with
      | .error e => .error (.evalE e)
      | .ok v => .ok v
    else .error .invalidE

/-- `safe_calculate`: the pipeline's result rendered as the tool's response
string (`original_expression` is the stripped input). -/
def safe_calculate (s : String) : String :=
  match calcFrac s with
  | .error .emptyE => calcEmptyMsg
  | .error .invalidE => calcInvalidMsg
  | .error (.evalE .divZero) => calcDivMsg
  | .error (.evalE .badParse) => calcSynMsg (pyStrip s)
  | .error (.evalE (.otherErr m)) => calcGenMsg (pyStrip s) m
  | .ok v => calcSuccess (pyStrip s) v

/-! ## `analyze_sentiment` (tools/sentiment_tool.py)

The VADER scorer is an external library; it enters as an oracle
`scorer : String → Except String VScores` (its documented contract puts the
compound score in `[-1, 1]`), and `ensure_vader_downloaded` as an oracle
`Except String Unit`.  An `Except.error` models a raised exception, caught
by the handler's `try/except`. -/

/-- The four `polarity_scores` values. -/
structure VScores where
  compound : ℚ
  pos : ℚ
  neg : ℚ
  neu : ℚ

def posLabel : String := ("Positive 😊")

def negLabel : String := ("Negative 😟")

def neuLabel : String := ("Neutral 😐")

/-- The `if/elif/else` classification on the compound score. -/
def sentimentLabel (c : ℚ) : String :=
  if c ≥ 5/100 then posLabel else if c ≤ -(5/100) then negLabel else neuLabel

def sentimentEmoji (c : ℚ) : String :=
  if c ≥ 5/100 then ("📈") else if c ≤ -(5/100) then ("📉") else ("➡️")

def sentimentInterp (c : ℚ) : String :=
  if c ≥ 5/100 then ("The text expresses positive sentiment.")
  else if c ≤ -(5/100) then ("The text expresses negative sentiment.")
  else ("The text expresses neutral sentiment.")

/-- Strength classification on `abs(compound)`. -/
def strengthLabel (c : ℚ) : String :=
  if |c| ≥ 75/100 then ("Very Strong")
  else if |c| ≥ 5/10 then ("Strong")
  else if |c| ≥ 25/100 then ("Moderate")
  else ("Weak")

/-- The five financial-tone buckets on the compound score. -/
def finTone (c : ℚ) : String :=
  if c ≥ 5/10 then
    ("- Strong bullish sentiment detected\n- May indicate positive market outlook\n")
  else if c ≥ 5/100 then
    ("- Mild bullish sentiment detected\n- Generally favorable market tone\n")
  else if c ≤ -(5/10) then
    ("- Strong bearish sentiment detected\n- May indicate negative market outlook\n")
  else if c ≤ -(5/100) then
    ("- Mild bearish sentiment detected\n- Some market concerns present\n")
  else
    ("- Balanced sentiment detected\n- No clear directional bias\n")

/-- The sentiment success block (`t` is the stripped text). -/
def sentSuccess (t : String) (sc : VScores) : String :=
  ("\n") ++ sentimentEmoji sc.compound ++
    (" **Sentiment Analysis Result**\n\n📝 **Analyzed Text**: \"") ++
    pyTake t 100 ++ (if pyLen t > 100 then ("...") else ("")) ++
    ("\"\n\n**Overall Sentiment**: ") ++ sentimentLabel sc.compound ++
    ("\n**Strength**: ") ++ strengthLabel sc.compound ++
    ("\n\n**Detailed Scores**:\n- Compound Score: ") ++ fmt3 (ratFrac sc.compound) ++
    (" (range: -1 to +1)\n- Positive: ") ++ fmtPct1 (ratFrac sc.pos) ++
    ("\n- Negative: ") ++ fmtPct1 (ratFrac sc.neg) ++
    ("\n- Neutral: ") ++ fmtPct1 (ratFrac sc.neu) ++
    ("\n\n**Interpretation**: ") ++ sentimentInterp sc.compound ++
    ("\n\n**Score Guide**:\n- Compound ≥ 0.05: Positive sentiment\n- Compound ≤ -0.05: Negative sentiment\n- -0.05 < Compound < 0.05: Neutral sentiment\n\n**Financial Context**:\n") ++
    finTone sc.compound

def sentErrMsg (e : String) : String := ("❌ Error analyzing sentiment: ") ++ e

def sentEmptyMsg : String := ("❌ Error: Please provide text to analyze.")

/-- `analyze_sentiment`. -/
def analyze_sentiment (ensure : Except String Unit)
    (scorer : String → Except String VScores) (text : String) : String :=
  match ensure with
  | .error e => sentErrMsg e
  | .ok _ =>
    if pyStrip text = ("") then sentEmptyMsg
    else
      match scorer (pyStrip text) with
      | .error e => sentErrMsg e
      | .ok sc => sentSuccess (pyStrip text) sc

/-! ## `get_stock_data` (tools/stock_tool.py)

The yfinance client enters as an oracle returning the `info` metadata and
the 7-calendar-day history rows (oldest first, as `stock.history` returns
them).  Dict truthiness tests (`info['marketCap']`, `info['sector']`, …)
are modelled on `Option` values with the corresponding non-zero/non-empty
tests. -/

/-- One row of the price history (`date` is the index already formatted
`%Y-%m-%d`). -/
structure StockRow where
  date : String
  high : ℚ
  low : ℚ
  close : ℚ
  volume : ℚ

/-- The `stock.info` metadata fields the handler reads (`none` = key
missing). -/
structure StockInfo where
  longName : Option String
  shortName : Option String
  marketCap : Option ℚ
  sector : Option String
  industry : Option String

/-- Ticker normalization `ticker.strip().upper()`. -/
def normTicker (t : String) : String := pyUpper (pyStrip t)

def stockNoDataMsg (tk : String) : String :=
  ("❌ No data found for ticker '") ++ tk ++
    ("'. Please verify the ticker symbol is correct.")

def stockErrMsg (tk e : String) : String :=
  ("❌ Error fetching data for '") ++ tk ++ ("': ") ++ e ++
    (". Please verify the ticker symbol is correct and try again.")

/-- `hist['Close'].iloc[-1]` on the non-empty history `h0 :: rest`. -/
def currentPriceOf (h0 : StockRow) (rest : List StockRow) : ℚ :=
  (rest.getLastD h0).close

/-- `(price_change, price_change_pct)`: most recent close minus the oldest
close (absolute and percentage) when `len(hist) > 1`, else `(0, 0)`. -/
def changeOf (h0 : StockRow) (rest : List StockRow) : ℚ × ℚ :=
  if rest.isEmpty then (0, 0)
  else
    (currentPriceOf h0 rest - h0.close,
     (currentPriceOf h0 rest - h0.close) / h0.close * 100)

/-- `hist['High'].max()`. -/
def highOf (h0 : StockRow) (rest : List StockRow) : ℚ :=
  (rest.map (fun r => r.high)).foldl max h0.high

/-- `hist['Low'].min()`. -/
def lowOf (h0 : StockRow) (rest : List StockRow) : ℚ :=
  (rest.map (fun r => r.low)).foldl min h0.low

/-- `'-USD' in ticker or ticker in ['BTC', 'ETH', 'DOGE']`. -/
def isCrypto (tk : String) : Bool :=
  strHas tk ("-USD") || tk = ("BTC") || tk = ("ETH") || tk = ("DOGE")

def assetType (tk : String) : String :=
  if isCrypto tk then ("Cryptocurrency") else ("Stock")

/-- `info.get('longName', info.get('shortName', ticker))`. -/
def companyName (info : StockInfo) (tk : String) : String :=
  (info.longName.getD (info.shortName.getD tk))

/-- The last-5-days lines, newest first. -/
def recentLines (h0 : StockRow) (rest : List StockRow) : String :=
  String.join (((h0 :: rest).reverse.take 5).map
    (fun r => ("- ") ++ r.date ++ (": $") ++ fmt2 (ratFrac r.close) ++ ("\n")))

/-- The trend remark, bucketed on the percentage change. -/
def trendPart (pct : ℚ) : String :=
  if pct > 5 then ("\n🚀 **Trend**: Strong upward momentum")
  else if pct > 0 then ("\n📈 **Trend**: Positive movement")
  else if pct > -5 then ("\n📉 **Trend**: Slight decline")
  else ("\n⚠️ **Trend**: Significant decline")

/-- `if 'marketCap' in info and info['marketCap']:` (truthiness: present and
non-zero). -/
def marketCapPart (info : StockInfo) : String :=
  match info.marketCap with
  | some c => if c ≠ 0 then ("\n💰 **Market Cap**: $") ++ fmt0c (ratFrac c) else ("")
  | none => ("")

/-- Sector and industry lines, for non-crypto tickers only. -/
def sectorPart (info : StockInfo) (tk : String) : String :=
  if isCrypto tk then ("")
  else
    (match info.sector with
     | some s => if s ≠ ("") then ("\n🏢 **Sector**: ") ++ s else ("")
     | none => ("")) ++
    (match info.industry with
     | some s => if s ≠ ("") then ("\n🔧 **Industry**: ") ++ s else ("")
     | none => (""))

/-- The stock success block for non-empty history `h0 :: rest`. -/
def stockSuccess (tk : String) (info : StockInfo) (h0 : StockRow)
    (rest : List StockRow) : String :=
  ("\n📊 **") ++ assetType tk ++ (" Information: ") ++ companyName info tk ++
    (" (") ++ tk ++ (")**\n\n💵 ") ++ ("**Current Price**: $") ++
    fmt2 (ratFrac (currentPriceOf h0 rest)) ++
    ("\n📈 ") ++ ("**7-Day Change**: $") ++ fmtSigned2 (ratFrac (changeOf h0 rest).1) ++
    (" (") ++ fmtSigned2 (ratFrac (changeOf h0 rest).2) ++
    ("%)\n📊 ") ++ ("**Volume**: ") ++ fmt0c (ratFrac (rest.getLastD h0).volume) ++
    ("\n📅 **Last Updated**: ") ++ (rest.getLastD h0).date ++
    ("\n\n**7-Day Price Range**:\n") ++ ("- High: $") ++ fmt2 (ratFrac (highOf h0 rest)) ++
    ("\n") ++ ("- Low: $") ++ fmt2 (ratFrac (lowOf h0 rest)) ++
    ("\n\n**Recent Performance**:\n") ++ recentLines h0 rest ++
    trendPart (changeOf h0 rest).2 ++ marketCapPart info ++ sectorPart info tk

/-- `get_stock_data`.  The oracle models `yf.Ticker(t).info` and
`.history(...)`.  Declared modelling edge: when the oldest close is `0`
with at least two rows, this model takes the `ZeroDivisionError` branch of
the handler's `try/except`, whereas the actual pandas column values are
numpy floats, for which the division yields `inf` inside a success block —
a value with no rational representative.  No theorem below leans on this
branch: the claims about the success path carry an explicit hypothesis
excluding a zero oldest close. -/
def get_stock_data (fetch : String → Except String (StockInfo × List StockRow))
    (t : String) : String :=
  let tk := normTicker t
  match fetch tk with
  | .error e => stockErrMsg tk e
  | .ok (info, hist) =>
    match hist with
    | [] => stockNoDataMsg tk
    | h0 :: rest =>
      if !rest.isEmpty && h0.close = 0 then
        stockErrMsg tk ("float division by zero")
      else stockSuccess tk info h0 rest

/-! ## `search_wikipedia` (tools/wikipedia_tool.py)

The `wikipediaapi` client enters as an oracle returning the page record
(existence flag, title, summary, canonical URL, category labels in their
dict order). -/

structure WikiPage where
  pageExists : Bool
  title : String
  summary : String
  fullurl : String
  categories : List String

def wikiEmptyMsg : String := ("❌ Error: Please provide a search query.")

def wikiNotFoundMsg (q : String) : String :=
  ("❌ No Wikipedia page found for '") ++ q ++
    ("'. Please try a different search term or check the spelling.")

def wikiErrMsg (q e : String) : String :=
  ("❌ Error searching Wikipedia for '") ++ q ++ ("': ") ++ e

/-- The summary shown: truncated to 800 characters with an ellipsis when
the original exceeds 800. -/
def shownSummary (p : WikiPage) : String :=
  if pyLen p.summary > 800 then pyTake p.summary 800 ++ ("...") else p.summary

/-- `', '.join(list(page.categories.keys())[:5]) if page.categories else 'N/A'`. -/
def shownCategories (p : WikiPage) : String :=
  if p.categories.isEmpty then ("N/A")
  else (", ").intercalate (p.categories.take 5)

/-- The Wikipedia success block. -/
def wikiSuccess (p : WikiPage) : String :=
  ("\n📚 **Wikipedia Summary: ") ++ p.title ++ ("**\n\n") ++ shownSummary p ++
    ("\n\n🔗 **Source**: ") ++ p.fullurl ++ ("\n\n💡 **Categories**: ") ++
    shownCategories p ++ ("\n")

/-- `search_wikipedia`. -/
def search_wikipedia (fetch : String → Except String WikiPage)
    (query : String) : String :=
  if pyStrip query = ("") then wikiEmptyMsg
  else
    match fetch (pyStrip query) with
    | .error e => wikiErrMsg (pyStrip query) e
    | .ok p =>
      if p.pageExists = false then wikiNotFoundMsg (pyStrip query)
      else wikiSuccess p

/-! ## Infrastructure lemmas for response-shape reasoning -/

theorem listStarts_append_false (p a b : List Char) (h : listStarts p a = false)
    (hl : p.length ≤ a.length) : listStarts p (a ++ b) = false := by
  induction p generalizing a with
  | nil => simp [listStarts] at h
  | cons x xs ih =>
    cases a with
    | nil => simp at hl
    | cons y ys =>
      simp only [listStarts, Bool.and_eq_false_iff] at h
      simp only [List.cons_append, listStarts, Bool.and_eq_false_iff]
      rcases h with h | h
      · exact Or.inl h
      · cases hxy : (x == y) with
        | false => exact Or.inl rfl
        | true =>
          refine Or.inr (ih ys h ?_)
          simpa using hl

theorem strStarts_concat (a b p : String) (h : strStarts a p = true) :
    strStarts (a ++ b) p = true := by
  simp only [strStarts, String.data_append]
  exact listStarts_append _ _ _ h

theorem strStarts_concat_false (a b p : String) (h : strStarts a p = false)
    (hl : p.data.length ≤ a.data.length) : strStarts (a ++ b) p = false := by
  simp only [strStarts, String.data_append]
  exact listStarts_append_false _ _ _ h hl

theorem strHas_of_decomp (s n : String) (pre post : List Char)
    (h : s.data = pre ++ (n.data ++ post)) : strHas s n = true := by
  simp [strHas, h, listHas_sandwich]

/-- A tool response is exactly one of the two block kinds: it starts with
the failure marker, or it starts with the newline every success block
opens with — never both. -/
def exactlyOneBlock (out : String) : Prop :=
  (strStarts out errMark = true ∧ strStarts out ("\n") = false) ∨
    (strStarts out errMark = false ∧ strStarts out ("\n") = true)

instance (out : String) : Decidable (exactlyOneBlock out) := by
  unfold exactlyOneBlock
  infer_instance

theorem listStarts_singleton_ne_nil (c : Char) (l : List Char)
    (h : listStarts [c] l = true) : 1 ≤ l.length := by
  cases l with
  | nil => simp [listStarts] at h
  | cons x xs => simp

theorem exactlyOneBlock_concat (a b : String) (h : exactlyOneBlock a) :
    exactlyOneBlock (a ++ b) := by
  rcases h with ⟨h1, h2⟩ | ⟨h1, h2⟩
  · refine Or.inl ⟨strStarts_concat a b _ h1, strStarts_concat_false a b _ h2 ?_⟩
    exact listStarts_singleton_ne_nil _ _ h1
  · refine Or.inr ⟨strStarts_concat_false a b _ h1 ?_, strStarts_concat a b _ h2⟩
    exact listStarts_singleton_ne_nil _ _ h2

theorem strHas_refl (n : String) : strHas n n = true := by
  simpa [strHas] using listHas_of_starts _ _ (listStarts_refl n.data)

theorem strHas_concat_left (a b n : String) (h : strHas a n = true) :
    strHas (a ++ b) n = true := by
  simp only [strHas, String.data_append]
  exact listHas_append_left _ _ h _

theorem strHas_concat_right (a b n : String) (h : strHas b n = true) :
    strHas (a ++ b) n = true := by
  simp only [strHas, String.data_append]
  exact listHas_append_right _ _ h _

/-! ## Claim theorems -/

/-- C1: every tool handler is a total function into strings (no exception
escapes: all external failures enter as `Except.error` oracles and every
path below is a returned string), each failure path yields a string
beginning with the failure marker `"❌"`, and each response is exactly one
of the two shapes — an error string starting with `"❌"`, or the handler's
success block (which starts with `"\n"`, never with the marker). -/
theorem C1_tool_boundary (e txt q t : String) (ens : Except String Unit)
    (sco : String → Except String VScores)
    (wfetch : String → Except String WikiPage)
    (sfetch : String → Except String (StockInfo × List StockRow)) :
    ((strStarts (safe_calculate e) errMark = true ∨
        ∃ v, calcFrac e = .ok v ∧ safe_calculate e = calcSuccess (pyStrip e) v) ∧
      exactlyOneBlock (safe_calculate e)) ∧
    ((strStarts (analyze_sentiment ens sco txt) errMark = true ∨
        ∃ sc, analyze_sentiment ens sco txt = sentSuccess (pyStrip txt) sc) ∧
      exactlyOneBlock (analyze_sentiment ens sco txt)) ∧
    ((strStarts (search_wikipedia wfetch q) errMark = true ∨
        ∃ p, search_wikipedia wfetch q = wikiSuccess p) ∧
      exactlyOneBlock (search_wikipedia wfetch q)) ∧
    ((strStarts (get_stock_data sfetch t) errMark = true ∨
        ∃ info h0 rest, get_stock_data sfetch t =
          stockSuccess (normTicker t) info h0 rest) ∧
      exactlyOneBlock (get_stock_data sfetch t)) := by
  refine ⟨⟨?_, ?_⟩, ⟨?_, ?_⟩, ⟨?_, ?_⟩, ⟨?_, ?_⟩⟩
  · rcases hc : calcFrac e with err | v
    · refine Or.inl ?_
      rcases err with _ | _ | ee
      · simp only [safe_calculate, hc]; decide
      · simp only [safe_calculate, hc]; decide
      · rcases ee with _ | _ | msg
        · simp only [safe_calculate, hc]; decide
        · simp only [safe_calculate, hc, calcSynMsg]
          repeat (apply strStarts_concat)
          decide
        · simp only [safe_calculate, hc, calcGenMsg]
          repeat (apply strStarts_concat)
          decide
    · exact Or.inr ⟨v, rfl, by simp [safe_calculate, hc]⟩
  · rcases hc : calcFrac e with err | v
    · rcases err with _ | _ | ee
      · simp only [safe_calculate, hc]; decide
      · simp only [safe_calculate, hc]; decide
      · rcases ee with _ | _ | msg
        · simp only [safe_calculate, hc]; decide
        · simp only [safe_calculate, hc, calcSynMsg]
          repeat (apply exactlyOneBlock_concat)
          decide
        · simp only [safe_calculate, hc, calcGenMsg]
          repeat (apply exactlyOneBlock_concat)
          decide
    · simp only [safe_calculate, hc, calcSuccess]
      repeat (apply exactlyOneBlock_concat)
      decide
  · rcases ens with eens | u
    · refine Or.inl ?_
      simp only [analyze_sentiment, sentErrMsg]
      repeat (apply strStarts_concat)
      decide
    · cases u
      by_cases hstrip : pyStrip txt = ("")
      · refine Or.inl ?_
        simp only [analyze_sentiment, if_pos hstrip]
        decide
      · rcases hsco : sco (pyStrip txt) with esc | sc
        · refine Or.inl ?_
          simp only [analyze_sentiment, if_neg hstrip, hsco, sentErrMsg]
          repeat (apply strStarts_concat)
          decide
        · exact Or.inr ⟨sc, by simp [analyze_sentiment, if_neg hstrip, hsco]⟩
  · rcases ens with eens | u
    · simp only [analyze_sentiment, sentErrMsg]
      repeat (apply exactlyOneBlock_concat)
      decide
    · cases u
      by_cases hstrip : pyStrip txt = ("")
      · simp only [analyze_sentiment, if_pos hstrip]
        decide
      · rcases hsco : sco (pyStrip txt) with esc | sc
        · simp only [analyze_sentiment, if_neg hstrip, hsco, sentErrMsg]
          repeat (apply exactlyOneBlock_concat)
          decide
        · simp only [analyze_sentiment, if_neg hstrip, hsco, sentSuccess]
          repeat (apply exactlyOneBlock_concat)
          decide
  · by_cases hstrip : pyStrip q = ("")
    · refine Or.inl ?_
      simp only [search_wikipedia, if_pos hstrip]
      decide
    · rcases hw : wfetch (pyStrip q) with ew | p
      · refine Or.inl ?_
        simp only [search_wikipedia, if_neg hstrip, hw, wikiErrMsg]
        repeat (apply strStarts_concat)
        decide
      · by_cases hex : p.pageExists = false
        · refine Or.inl ?_
          simp only [search_wikipedia, if_neg hstrip, hw, if_pos hex, wikiNotFoundMsg]
          repeat (apply strStarts_concat)
          decide
        · exact Or.inr ⟨p, by simp [search_wikipedia, if_neg hstrip, hw, hex]⟩
  · by_cases hstrip : pyStrip q = ("")
    · simp only [search_wikipedia, if_pos hstrip]
      decide
    · rcases hw : wfetch (pyStrip q) with ew | p
      · simp only [search_wikipedia, if_neg hstrip, hw, wikiErrMsg]
        repeat (apply exactlyOneBlock_concat)
        decide
      · by_cases hex : p.pageExists = false
        · simp only [search_wikipedia, if_neg hstrip, hw, if_pos hex, wikiNotFoundMsg]
          repeat (apply exactlyOneBlock_concat)
          decide
        · simp only [search_wikipedia, if_neg hstrip, hw, if_neg hex, wikiSuccess]
          repeat (apply exactlyOneBlock_concat)
          decide
  · rcases hs : sfetch (normTicker t) with es | pr
    · refine Or.inl ?_
      simp only [get_stock_data, hs, stockErrMsg]
      repeat (apply strStarts_concat)
      decide
    · rcases pr with ⟨info, hist⟩
      cases hist with
      | nil =>
        refine Or.inl ?_
        simp only [get_stock_data, hs, stockNoDataMsg]
        repeat (apply strStarts_concat)
        decide
      | cons h0 rest =>
        by_cases hz : (!rest.isEmpty && decide (h0.close = 0)) = true
        · refine Or.inl ?_
          simp only [get_stock_data, hs, hz, if_true, stockErrMsg]
          repeat (apply strStarts_concat)
          decide
        · refine Or.inr ⟨info, h0, rest, ?_⟩
          simp only [get_stock_data, hs]
          rw [if_neg hz]
  · rcases hs : sfetch (normTicker t) with es | pr
    · simp only [get_stock_data, hs, stockErrMsg]
      repeat (apply exactlyOneBlock_concat)
      decide
    · rcases pr with ⟨info, hist⟩
      cases hist with
      | nil =>
        simp only [get_stock_data, hs, stockNoDataMsg]
        repeat (apply exactlyOneBlock_concat)
        decide
      | cons h0 rest =>
        by_cases hz : (!rest.isEmpty && decide (h0.close = 0)) = true
        · simp only [get_stock_data, hs, hz, if_true, stockErrMsg]
          repeat (apply exactlyOneBlock_concat)
          decide
        · simp only [get_stock_data, hs]
          rw [if_neg hz]
          simp only [stockSuccess]
          repeat (apply exactlyOneBlock_concat)
          decide

/-- C3 counterexample: the claim quantifies over every text input with at
least one character, but a whitespace-only input such as `" "` has one
character and still fails `if not text or not text.strip()` — the handler
returns the empty-input error, which carries none of the three sentiment
labels and no compound score, so no label classification happens there. -/
theorem C3_sentiment_blank_counterexample :
    pyLen (" ") = 1 ∧
    analyze_sentiment (.ok ()) (fun _ => .ok ⟨0, 0, 0, 1⟩) (" ") = sentEmptyMsg ∧
    strStarts sentEmptyMsg errMark = true ∧
    strHas sentEmptyMsg posLabel = false ∧
    strHas sentEmptyMsg negLabel = false ∧
    strHas sentEmptyMsg neuLabel = false ∧
    strHas sentEmptyMsg (("Compound Score")) = false :=
  ⟨rfl, rfl, by decide, by decide, by decide, by decide, by decide⟩

/-- C3 amended: for every text with at least one non-whitespace character
(whitespace-only and empty inputs get the empty-input error instead) and
every scorer outcome (the VADER contract keeps the compound score in
`[-1, 1]`, taken as a hypothesis), `analyze_sentiment` returns the success
block, whose sentiment label is exactly one of the three labels; the label
is Positive iff `compound ≥ 0.05`, Negative iff `compound ≤ -0.05`, and
Neutral otherwise, and the reported compound score lies in `[-1, 1]`. -/
theorem C3_sentiment_classification (text : String) (sc : VScores)
    (ht : pyStrip text ≠ ("")) (hc : -1 ≤ sc.compound ∧ sc.compound ≤ 1) :
    analyze_sentiment (.ok ()) (fun _ => .ok sc) text = sentSuccess (pyStrip text) sc ∧
    (sentimentLabel sc.compound = posLabel ∨ sentimentLabel sc.compound = negLabel ∨
      sentimentLabel sc.compound = neuLabel) ∧
    (sentimentLabel sc.compound = posLabel ↔ 5/100 ≤ sc.compound) ∧
    (sentimentLabel sc.compound = negLabel ↔ sc.compound ≤ -(5/100)) ∧
    (sentimentLabel sc.compound = neuLabel ↔
      -(5/100) < sc.compound ∧ sc.compound < 5/100) ∧
    (-1 ≤ sc.compound ∧ sc.compound ≤ 1) ∧
    strHas (sentSuccess (pyStrip text) sc) (sentimentLabel sc.compound) = true := by
  have hpn : posLabel ≠ negLabel := by decide
  have hpu : posLabel ≠ neuLabel := by decide
  have hnu : negLabel ≠ neuLabel := by decide
  refine ⟨by simp [analyze_sentiment, if_neg ht], ?_, ?_, ?_, ?_, hc, ?_⟩
  · unfold sentimentLabel
    split
    · exact Or.inl rfl
    · split
      · exact Or.inr (Or.inl rfl)
      · exact Or.inr (Or.inr rfl)
  · unfold sentimentLabel
    rcases le_or_lt (5/100 : ℚ) sc.compound with h1 | h1
    · simp [if_pos h1, h1]
    · rw [if_neg (by exact not_le.mpr h1)]
      rcases le_or_lt sc.compound (-(5/100)) with h2 | h2
      · simp [if_pos h2, hpn.symm]
        linarith
      · simp [if_neg (not_le.mpr h2), hpu.symm]
        linarith
  · unfold sentimentLabel
    rcases le_or_lt (5/100 : ℚ) sc.compound with h1 | h1
    · simp [if_pos h1, hpn]
      linarith
    · rw [if_neg (by exact not_le.mpr h1)]
      rcases le_or_lt sc.compound (-(5/100)) with h2 | h2
      · simp [if_pos h2, h2]
      · simp [if_neg (not_le.mpr h2), hnu.symm]
        linarith
  · unfold sentimentLabel
    rcases le_or_lt (5/100 : ℚ) sc.compound with h1 | h1
    · simp [if_pos h1, hpu]
      intro h
      linarith
    · rw [if_neg (by exact not_le.mpr h1)]
      rcases le_or_lt sc.compound (-(5/100)) with h2 | h2
      · simp [if_pos h2, hnu]
        intro h
        linarith
      · simp [if_neg (not_le.mpr h2)]
        exact ⟨by linarith, h1⟩
  · simp only [sentSuccess, String.append_assoc]
    repeat
      first
      | exact strHas_refl _
      | exact strHas_concat_left _ _ _ (strHas_refl _)
      | apply strHas_concat_right

/-- C3 witness at `text = "up"` and a concrete Positive score. -/
theorem C3_sentiment_classification_witness :
    sentimentLabel ((6 : ℚ)/10) = posLabel ∧
    analyze_sentiment (.ok ()) (fun _ => .ok ⟨6/10, 1, 0, 0⟩) ("up") =
      sentSuccess (pyStrip ("up")) ⟨6/10, 1, 0, 0⟩ := by
  have h := C3_sentiment_classification ("up") ⟨6/10, 1, 0, 0⟩
    (by decide) (by norm_num)
  exact ⟨h.2.2.1.mpr (by norm_num), h.1⟩

theorem foldl_max_init_le (l : List ℚ) : ∀ init : ℚ, init ≤ l.foldl max init := by
  induction l with
  | nil => intro init; simp
  | cons a as ih =>
    intro init
    exact le_trans (le_max_left init a) (ih (max init a))

theorem foldl_min_le_init (l : List ℚ) : ∀ init : ℚ, l.foldl min init ≤ init := by
  induction l with
  | nil => intro init; simp
  | cons a as ih =>
    intro init
    exact le_trans (ih (min init a)) (min_le_left init a)

theorem getLastD_eq_getLast (rest : List StockRow) :
    ∀ h0 : StockRow, rest.getLastD h0 = (h0 :: rest).getLast (by simp) := by
  induction rest with
  | nil => intro h0; rfl
  | cons a l ih =>
    intro h0
    rw [List.getLastD_cons, ih a]
    rfl

/-- C5: when the fetched history is empty, `get_stock_data` returns exactly
the "no data found" error naming the normalized ticker — it starts with the
failure marker, contains the normalized ticker, and (being exactly this
template) carries no price fields, as checked on the concrete template
instance for ticker `"INVALID"`. -/
theorem C5_stock_empty_history (t : String) (info : StockInfo) :
    get_stock_data (fun _ => .ok (info, [])) t = stockNoDataMsg (normTicker t) ∧
    strStarts (stockNoDataMsg (normTicker t)) errMark = true ∧
    strHas (stockNoDataMsg (normTicker t)) (normTicker t) = true ∧
    strHas (stockNoDataMsg (normTicker ("INVALID"))) (("Current Price")) = false ∧
    strHas (stockNoDataMsg (normTicker ("INVALID"))) (("7-Day Change")) = false ∧
    strHas (stockNoDataMsg (normTicker ("INVALID"))) (("Volume")) = false ∧
    strHas (stockNoDataMsg (normTicker ("INVALID"))) (("Price Range")) = false := by
  refine ⟨by simp [get_stock_data], ?_, ?_, by decide, by decide, by decide, by decide⟩
  · simp only [stockNoDataMsg]
    repeat (apply strStarts_concat)
    decide
  · simp only [stockNoDataMsg, String.append_assoc]
    repeat
      first
      | exact strHas_refl _
      | exact strHas_concat_left _ _ _ (strHas_refl _)
      | apply strHas_concat_right

/-- C4: for a non-empty fetched history (oldest row first, as the
market-data source returns it, and with a non-zero oldest close whenever
the window has at least two rows — otherwise the handler's own
`ZeroDivisionError` path fires), `get_stock_data` emits the success block
whose current price is the most recent close, whose 7-day change is the
most recent close minus the oldest close (absolute and percentage), and
whose change and percentage are both zero when fewer than two data points
exist. -/
theorem C4_stock_change_computation (t : String) (info : StockInfo)
    (h0 : StockRow) (rest : List StockRow) (hz : rest ≠ [] → h0.close ≠ 0) :
    get_stock_data (fun _ => .ok (info, h0 :: rest)) t =
      stockSuccess (normTicker t) info h0 rest ∧
    currentPriceOf h0 rest = ((h0 :: rest).getLast (by simp)).close ∧
    (rest = [] → changeOf h0 rest = (0, 0)) ∧
    (rest ≠ [] →
      (changeOf h0 rest).1 = currentPriceOf h0 rest - h0.close ∧
      (changeOf h0 rest).2 = (currentPriceOf h0 rest - h0.close) / h0.close * 100) ∧
    strHas (stockSuccess (normTicker t) info h0 rest) (("**Current Price**: $")) = true := by
  have hcond : ¬ ((!rest.isEmpty && decide (h0.close = 0)) = true) := by
    cases rest with
    | nil => simp
    | cons a l => simp [hz (by simp)]
  refine ⟨?_, ?_, ?_, ?_, ?_⟩
  · simp only [get_stock_data]
    rw [if_neg hcond]
  · simp only [currentPriceOf]
    rw [getLastD_eq_getLast]
  · intro h
    simp [changeOf, h]
  · intro h
    have : rest.isEmpty = false := by
      cases rest with
      | nil => exact absurd rfl h
      | cons a l => rfl
    simp [changeOf, this]
  · simp only [stockSuccess, String.append_assoc]
    iterate 7 apply strHas_concat_right
    exact strHas_concat_left _ _ _ (strHas_refl _)

/-- C4 witness at a concrete two-row history. -/
theorem C4_stock_change_computation_witness :
    (changeOf ⟨("2024-01-01"), 12, 9, 10, 1000⟩ [⟨("2024-01-02"), 13, 10, 11, 1100⟩]).1 =
      currentPriceOf ⟨("2024-01-01"), 12, 9, 10, 1000⟩ [⟨("2024-01-02"), 13, 10, 11, 1100⟩] -
        (10 : ℚ) ∧
    (changeOf ⟨("2024-01-01"), 12, 9, 10, 1000⟩ [⟨("2024-01-02"), 13, 10, 11, 1100⟩]).2 =
      (currentPriceOf ⟨("2024-01-01"), 12, 9, 10, 1000⟩ [⟨("2024-01-02"), 13, 10, 11, 1100⟩] -
        (10 : ℚ)) / 10 * 100 :=
  (C4_stock_change_computation ("AAPL") ⟨none, none, none, none, none⟩
    ⟨("2024-01-01"), 12, 9, 10, 1000⟩ [⟨("2024-01-02"), 13, 10, 11, 1100⟩]
    (fun _ => by norm_num)).2.2.2.1 (by simp)

/-- C8: for a non-empty history in which each row's High is at least that
row's Low (and the success path is reachable), the output is the success
block containing the normalized ticker, a current-price line, and the 7-day
high/low pair, where the reported high (max of the High column) is at least
the reported low (min of the Low column). -/
theorem C8_stock_high_low (t : String) (info : StockInfo) (h0 : StockRow)
    (rest : List StockRow) (hz : rest ≠ [] → h0.close ≠ 0)
    (hhl : h0.low ≤ h0.high ∧ ∀ r ∈ rest, r.low ≤ r.high) :
    lowOf h0 rest ≤ highOf h0 rest ∧
    get_stock_data (fun _ => .ok (info, h0 :: rest)) t =
      stockSuccess (normTicker t) info h0 rest ∧
    strHas (stockSuccess (normTicker t) info h0 rest) (normTicker t) = true ∧
    strHas (stockSuccess (normTicker t) info h0 rest) (("**Current Price**: $")) = true ∧
    strHas (stockSuccess (normTicker t) info h0 rest) (("- High: $")) = true ∧
    strHas (stockSuccess (normTicker t) info h0 rest) (("- Low: $")) = true := by
  have hcond : ¬ ((!rest.isEmpty && decide (h0.close = 0)) = true) := by
    cases rest with
    | nil => simp
    | cons a l => simp [hz (by simp)]
  refine ⟨?_, ?_, ?_, ?_, ?_, ?_⟩
  · calc lowOf h0 rest ≤ h0.low := foldl_min_le_init _ _
    _ ≤ h0.high := hhl.1
    _ ≤ highOf h0 rest := foldl_max_init_le _ _
  · simp only [get_stock_data]
    rw [if_neg hcond]
  · simp only [stockSuccess, String.append_assoc]
    iterate 5 apply strHas_concat_right
    exact strHas_concat_left _ _ _ (strHas_refl _)
  · simp only [stockSuccess, String.append_assoc]
    iterate 7 apply strHas_concat_right
    exact strHas_concat_left _ _ _ (strHas_refl _)
  · simp only [stockSuccess, String.append_assoc]
    iterate 20 apply strHas_concat_right
    exact strHas_concat_left _ _ _ (strHas_refl _)
  · simp only [stockSuccess, String.append_assoc]
    iterate 23 apply strHas_concat_right
    exact strHas_concat_left _ _ _ (strHas_refl _)

/-- C8 witness at a concrete one-row history. -/
theorem C8_stock_high_low_witness :
    lowOf ⟨("2024-01-01"), 12, 9, 10, 1000⟩ [] ≤
      highOf ⟨("2024-01-01"), 12, 9, 10, 1000⟩ [] :=
  (C8_stock_high_low ("AAPL") ⟨none, none, none, none, none⟩
    ⟨("2024-01-01"), 12, 9, 10, 1000⟩ [] (fun h => absurd rfl h)
    ⟨by norm_num, by simp⟩).1

/-- C9: for every query whose page exists, `search_wikipedia` returns the
success block with the page title, the canonical source URL, the summary
truncated to 800 characters — shown unchanged when it fits, with the
3-character ellipsis appended (total 803) exactly when it exceeds 800 —
and at most 5 category labels, or `"N/A"` when there are none. -/
theorem C9_wikipedia_truncation (query : String) (p : WikiPage)
    (hq : pyStrip query ≠ ("")) (hex : p.pageExists = true) :
    search_wikipedia (fun _ => .ok p) query = wikiSuccess p ∧
    shownSummary p =
      (if pyLen p.summary > 800 then pyTake p.summary 800 ++ ("...") else p.summary) ∧
    (pyLen p.summary ≤ 800 → shownSummary p = p.summary) ∧
    (800 < pyLen p.summary → pyLen (shownSummary p) = 803) ∧
    (p.categories.take 5).length ≤ 5 ∧
    shownCategories p =
      (if p.categories.isEmpty then ("N/A") else (", ").intercalate (p.categories.take 5)) ∧
    strHas (wikiSuccess p) p.title = true ∧
    strHas (wikiSuccess p) (shownSummary p) = true ∧
    strHas (wikiSuccess p) p.fullurl = true ∧
    (p.categories = [] → strHas (wikiSuccess p) (("N/A")) = true) := by
  refine ⟨?_, rfl, ?_, ?_, ?_, rfl, ?_, ?_, ?_, ?_⟩
  · simp [search_wikipedia, if_neg hq, hex]
  · intro h
    simp [shownSummary, Nat.not_lt.mpr h]
  · intro h
    simp only [pyLen] at h
    simp only [shownSummary, gt_iff_lt, pyLen, if_pos h, pyTake, String.data_append,
      data_mk, List.length_append, List.length_take, List.length_cons, List.length_nil]
    omega
  · exact List.length_take_le 5 p.categories
  · simp only [wikiSuccess, String.append_assoc]
    iterate 1 apply strHas_concat_right
    exact strHas_concat_left _ _ _ (strHas_refl _)
  · simp only [wikiSuccess, String.append_assoc]
    iterate 3 apply strHas_concat_right
    exact strHas_concat_left _ _ _ (strHas_refl _)
  · simp only [wikiSuccess, String.append_assoc]
    iterate 5 apply strHas_concat_right
    exact strHas_concat_left _ _ _ (strHas_refl _)
  · intro hcat
    have hna : shownCategories p = ("N/A") := by
      simp [shownCategories, hcat]
    simp only [wikiSuccess, String.append_assoc]
    iterate 7 apply strHas_concat_right
    rw [hna]
    exact strHas_concat_left _ _ _ (strHas_refl _)

/-- C9 witness at a concrete existing page. -/
theorem C9_wikipedia_truncation_witness :
    search_wikipedia
      (fun _ => .ok ⟨true, ("Stock"), ("A share."), ("https://x"), []⟩) ("Stock") =
      wikiSuccess ⟨true, ("Stock"), ("A share."), ("https://x"), []⟩ :=
  (C9_wikipedia_truncation ("Stock") ⟨true, ("Stock"), ("A share."), ("https://x"), []⟩
    (by decide) rfl).1

/-- C10: the bare-percent rewrite `(\d+\.?\d*)%` has no `\s*`, so it fires
only when `%` immediately follows a digit: in `"7 % 3"` the `%` survives
both rewriting stages and the validation unchanged, and the evaluator
treats it as Python's modulo operator, producing `7 % 3 = 1` (shown also in
the formatted result), not a percent value and not an error; by contrast
`"7% 3"` (immediate `%`) is rewritten, and `"15 %"` (separated, no right
operand) is a syntax error. -/
theorem C10_separated_percent_is_modulo :
    percentRewrite (("7 % 3").data) = ("7 % 3").data ∧
    bareRewrite (("7 % 3").data) = ("7 % 3").data ∧
    validExpr (("7 % 3").data) = true ∧
    calcFrac ("7 % 3") = .ok (intFrac 1) ∧
    strHas (safe_calculate ("7 % 3")) (("**Result**: 1.00")) = true ∧
    bareRewrite (("7% 3").data) = ("(7/100) 3").data ∧
    calcFrac ("15 %") = .error (.evalE .badParse) :=
  ⟨rfl, rfl, rfl, rfl, by decide, rfl, rfl⟩

/-- C7: after the percentage-phrase rewriting, any remaining character
outside digits, whitespace and `+ - * / ( ) . %` makes `safe_calculate`
return the invalid-characters error without reaching evaluation (the
pipeline yields `invalidE` before the evaluator is consulted), and this
validation is the sole gate: any input whose pipeline reaches a numeric
result passed it.  The evaluator itself (`evalChars`) is a closed
arithmetic function — the model of `eval` with no names and no builtins. -/
theorem C7_validation_is_sole_gate (s : String)
    (h1 : pyStrip s ≠ (""))
    (h2 : validExpr (percentRewrite (pyStrip s).data) = false) :
    safe_calculate s = calcInvalidMsg ∧
    calcFrac s = .error .invalidE ∧
    strStarts calcInvalidMsg errMark = true ∧
    (∀ u v, calcFrac u = .ok v → validExpr (percentRewrite (pyStrip u).data) = true) := by
  have hcf : calcFrac s = .error .invalidE := by
    simp only [calcFrac, if_neg h1, h2]
    rfl
  refine ⟨by simp [safe_calculate, hcf], hcf, by decide, ?_⟩
  intro u v huv
  by_cases hu : pyStrip u = ("")
  · simp [calcFrac, hu] at huv
  · cases hvv : validExpr (percentRewrite (pyStrip u).data) with
    | true => rfl
    | false =>
      rw [calcFrac, if_neg hu] at huv
      simp [hvv] at huv

/-- C7 witness at the spec's own example input. -/
theorem C7_validation_is_sole_gate_witness :
    safe_calculate ("invalid expression !!!") = calcInvalidMsg :=
  (C7_validation_is_sole_gate ("invalid expression !!!") (by decide) (by decide)).1

theorem append_ne_empty_left (a b : String) (h : a.data ≠ []) : (a ++ b) ≠ ("") := by
  intro e
  have hd := congrArg String.data e
  rw [String.data_append] at hd
  rcases List.append_eq_nil.mp hd with ⟨h1, _⟩
  exact h h1

/-- The currency-line condition in terms of rational values. -/
theorem currencyPart_cond (v : Frac) :
    (ltF (intFrac 0) v && ltF v (intFrac 1000000000)) = true ↔
      0 < val v ∧ val v < 1000000000 := by
  rw [Bool.and_eq_true, val_ltF, val_ltF, val_intFrac, val_intFrac]
  norm_num

theorem percentPart_cond (v : Frac) :
    (ltF (intFrac 0) v && ltF v (intFrac 100)) = true ↔
      0 < val v ∧ val v < 100 := by
  rw [Bool.and_eq_true, val_ltF, val_ltF, val_intFrac, val_intFrac]
  norm_num

/-- C6 counterexample: `safe_calculate "0 - 50"` succeeds with result `-50`,
whose magnitude lies strictly between 0 and 1,000,000,000 (and between 0
and 100), yet the output contains neither the currency-style nor the
percentage-style form — the source guards are `0 < result < bound` on the
signed value, so negative results of qualifying magnitude get neither
form. -/
theorem C6_magnitude_counterexample :
    calcFrac ("0 - 50") = .ok (subF (intFrac 0) (intFrac 50)) ∧
    (0 : ℚ) < |val (subF (intFrac 0) (intFrac 50))| ∧
    |val (subF (intFrac 0) (intFrac 50))| < 1000000000 ∧
    |val (subF (intFrac 0) (intFrac 50))| < 100 ∧
    strHas (safe_calculate ("0 - 50")) (("- Currency: $")) = false ∧
    strHas (safe_calculate ("0 - 50")) (("- As Percentage: ")) = false := by
  have hval : val (subF (intFrac 0) (intFrac 50)) = -50 := by
    norm_num [val, subF, intFrac]
  refine ⟨rfl, ?_, ?_, ?_, by decide, by decide⟩ <;> rw [hval] <;> norm_num

/-- C6 amended: on every successful evaluation the output is the success
block, which includes the currency-style form exactly when the signed
result lies strictly between 0 and 1,000,000,000, and the percentage-style
form exactly when it lies strictly between 0 and 100; results `≤ 0` get
neither form. -/
theorem C6_formatted_parts_amended (s : String) (v : Frac)
    (h : calcFrac s = .ok v) :
    safe_calculate s = calcSuccess (pyStrip s) v ∧
    (currencyPart v ≠ ("") ↔ (0 < val v ∧ val v < 1000000000)) ∧
    (percentPart v ≠ ("") ↔ (0 < val v ∧ val v < 100)) ∧
    (currencyPart v ≠ ("") →
      strHas (calcSuccess (pyStrip s) v) (("- Currency: $")) = true) ∧
    (percentPart v ≠ ("") →
      strHas (calcSuccess (pyStrip s) v) (("- As Percentage: ")) = true) ∧
    (val v ≤ 0 → currencyPart v = ("") ∧ percentPart v = ("")) := by
  have hcur : ∀ hc : (ltF (intFrac 0) v && ltF v (intFrac 1000000000)) = true,
      currencyPart v = ("- Currency: $") ++ fmt2c v ++ ("\n") := by
    intro hc
    simp [currencyPart, hc]
  have hpct : ∀ hc : (ltF (intFrac 0) v && ltF v (intFrac 100)) = true,
      percentPart v = ("- As Percentage: ") ++ fmt2 v ++ ("%\n") := by
    intro hc
    simp [percentPart, hc]
  refine ⟨by simp [safe_calculate, h], ?_, ?_, ?_, ?_, ?_⟩
  · rw [← currencyPart_cond]
    cases hc : (ltF (intFrac 0) v && ltF v (intFrac 1000000000)) with
    | true =>
      simp only [hc, iff_true]
      rw [hcur hc]
      simp only [String.append_assoc]
      exact append_ne_empty_left _ _ (by decide)
    | false =>
      simp [currencyPart, hc]
  · rw [← percentPart_cond]
    cases hc : (ltF (intFrac 0) v && ltF v (intFrac 100)) with
    | true =>
      simp only [hc, iff_true]
      rw [hpct hc]
      simp only [String.append_assoc]
      exact append_ne_empty_left _ _ (by decide)
    | false =>
      simp [percentPart, hc]
  · intro hne
    cases hc : (ltF (intFrac 0) v && ltF v (intFrac 1000000000)) with
    | false => exact absurd (by simp [currencyPart, hc]) hne
    | true =>
      simp only [calcSuccess, String.append_assoc]
      iterate 11 apply strHas_concat_right
      rw [hcur hc]
      simp only [String.append_assoc]
      exact strHas_concat_left _ _ _ (strHas_refl _)
  · intro hne
    cases hc : (ltF (intFrac 0) v && ltF v (intFrac 100)) with
    | false => exact absurd (by simp [percentPart, hc]) hne
    | true =>
      simp only [calcSuccess, String.append_assoc]
      iterate 12 apply strHas_concat_right
      rw [hpct hc]
      simp only [String.append_assoc]
      exact strHas_concat_left _ _ _ (strHas_refl _)
  · intro hle
    have h0 : ltF (intFrac 0) v = false := by
      rw [← Bool.not_eq_true]
      intro hb
      rw [val_ltF, val_intFrac] at hb
      norm_num at hb
      linarith
    constructor
    · simp [currencyPart, h0]
    · simp [percentPart, h0]

/-- C6 amended witness at input `"50"` (result 50: both forms qualify). -/
theorem C6_formatted_parts_amended_witness :
    safe_calculate ("50") = calcSuccess (pyStrip ("50")) ⟨50, 1, one_pos⟩ :=
  (C6_formatted_parts_amended ("50") ⟨50, 1, one_pos⟩ (by rfl)).1

/-! ## Support for C2: the percentage-phrase pipeline on `X% of Y` -/

end FinAdvisor
